import Mathlib

/-!
Formal model of the Play4 queueing core: the metadata structures and cache
(`play4/metadata.py`), the session manager (`play4/enhanced_session_manager.py`)
and the fast queue manager (`play4/fast_queue_manager.py`), together with
theorems about the behaviour of these components.

Modelling conventions: Python floats used as timestamps and confidence scores
become rationals (only order comparisons occur); the SQLite table behind the
metadata cache becomes a list of rows keyed by `url` (its primary key); the
one-file-per-session directory becomes a list of session records keyed by
`session_id`; fallible calls become `Except` values passed in as arguments.
-/

namespace Play4

/-- `MetadataSource` from `metadata.py` lines 18-22. -/
inductive MetadataSource where
  | YTDLP
  | ACOUSTID
  | MUSICBRAINZ
  | CACHE
deriving DecidableEq

/-- `SongMetadata` dataclass, `metadata.py` lines 24-37 (field defaults kept). -/
structure SongMetadata where
  title : String := "Unknown Title"
  artist : String := "Unknown Artist"
  album : String := "Unknown Album"
  duration : Int := 0
  genres : List String := []
  year : Option Int := none
  track_number : Option Int := none
  acoustid : Option String := none
  musicbrainz_id : Option String := none
  confidence : ℚ := 0
  source : MetadataSource := MetadataSource.YTDLP
  acoustid_attempted : Bool := false
deriving DecidableEq

/-- `SongMetadata.is_complete_metadata`, `metadata.py` lines 62-68. -/
def SongMetadata.is_complete_metadata (m : SongMetadata) : Bool :=
  decide (m.title ≠ "Unknown Title") &&
  decide (m.artist ≠ "Unknown Artist") &&
  decide (m.album ≠ "Unknown Album") &&
  decide (m.duration > 0) &&
  (decide (m.confidence ≥ 7/10) || decide (m.source = MetadataSource.ACOUSTID))

/-- One row of the `metadata` SQLite table, `metadata.py` lines 85-103.
`genres` is stored JSON-encoded in the table; since `json.dumps`/`json.loads`
round-trip a list of strings, the model stores the list itself. -/
structure CacheRow where
  url : String
  title : String
  artist : String
  album : String
  duration : Int
  genres : List String
  year : Option Int
  track_number : Option Int
  acoustid : Option String
  musicbrainz_id : Option String
  confidence : ℚ
  source : MetadataSource
  timestamp : ℚ
  last_accessed : ℚ
  acoustid_attempted : Bool
deriving DecidableEq

/-- `MetadataCache`: the table contents (`url` is the primary key). -/
structure MetadataCache where
  rows : List CacheRow
deriving DecidableEq

/-- The row written by `save_metadata`, `metadata.py` lines 150-160. -/
def rowFor (url : String) (m : SongMetadata) (now : ℚ) : CacheRow :=
  { url := url
    title := m.title
    artist := m.artist
    album := m.album
    duration := m.duration
    genres := m.genres
    year := m.year
    track_number := m.track_number
    acoustid := m.acoustid
    musicbrainz_id := m.musicbrainz_id
    confidence := m.confidence
    source := m.source
    timestamp := now
    last_accessed := now
    acoustid_attempted := m.acoustid_attempted }

/-- `MetadataCache.save_metadata`, `metadata.py` lines 146-160.
`INSERT OR REPLACE` on the `url` primary key deletes any conflicting row and
inserts the new one. -/
def MetadataCache.save_metadata (c : MetadataCache) (url : String)
    (m : SongMetadata) (now : ℚ) : MetadataCache :=
  ⟨c.rows.filter (fun r => !(r.url == url)) ++ [rowFor url m now]⟩

/-- Reconstruction of a `SongMetadata` from a row, `metadata.py` lines 136-143. -/
def metadataOfRow (r : CacheRow) : SongMetadata :=
  { title := r.title
    artist := r.artist
    album := r.album
    duration := r.duration
    genres := r.genres
    year := r.year
    track_number := r.track_number
    acoustid := r.acoustid
    musicbrainz_id := r.musicbrainz_id
    confidence := r.confidence
    source := r.source
    acoustid_attempted := r.acoustid_attempted }

/-- `MetadataCache.get_metadata`, `metadata.py` lines 123-144: on a hit the
row's `last_accessed` column is refreshed and the stored descriptor returned. -/
def MetadataCache.get_metadata (c : MetadataCache) (url : String) (now : ℚ) :
    MetadataCache × Option SongMetadata :=
  match c.rows.find? (fun r => r.url == url) with
  | some r =>
      (⟨c.rows.map (fun x => if x.url == url then { x with last_accessed := now } else x)⟩,
       some (metadataOfRow r))
  | none => (c, none)

theorem find?_filter_not_url (url : String) (l : List CacheRow) :
    (l.filter (fun r => !(r.url == url))).find? (fun r => r.url == url) = none := by
  induction l with
  | nil => simp
  | cons x xs ih =>
      by_cases h : x.url = url
      · simp [List.filter_cons, h, ih]
      · simp only [List.filter_cons]
        have hb : (x.url == url) = false := by
          simpa using h
        simp [hb, List.find?_cons, ih]

theorem countP_filter_not_url (url : String) (l : List CacheRow) :
    (l.filter (fun r => !(r.url == url))).countP (fun r => r.url == url) = 0 := by
  rw [List.countP_eq_zero]
  intro a ha
  have := (List.mem_filter.mp ha).2
  simp at this
  simp [this]

theorem get_after_save (c : MetadataCache) (url : String) (m : SongMetadata)
    (tsave tget : ℚ) :
    ((c.save_metadata url m tsave).get_metadata url tget).2 = some m := by
  unfold MetadataCache.get_metadata MetadataCache.save_metadata
  rw [List.find?_append, find?_filter_not_url]
  simp [List.find?_cons, metadataOfRow, rowFor]

theorem rows_after_get (c : MetadataCache) (url : String) (tget : ℚ) :
    ((c.get_metadata url tget).1).rows = c.rows ∨
      ((c.get_metadata url tget).1).rows =
        c.rows.map (fun x => if x.url == url then { x with last_accessed := tget } else x) := by
  unfold MetadataCache.get_metadata
  cases h : c.rows.find? (fun r => r.url == url) with
  | none => simp [h]
  | some r => simp [h]

theorem countP_after_save (c : MetadataCache) (url : String) (m : SongMetadata)
    (tsave : ℚ) :
    ((c.save_metadata url m tsave).rows).countP (fun r => r.url == url) = 1 := by
  unfold MetadataCache.save_metadata
  rw [List.countP_append, countP_filter_not_url]
  simp [List.countP_cons, rowFor]

/-- Claim C10: `save_metadata(x, A)` followed by `get_metadata(x)` returns `A`;
a subsequent `save_metadata(x, B)` followed by `get_metadata(x)` returns `B`,
and after the second save the table holds exactly one row for locator `x`
(the write replaces the earlier row instead of appending a second one). -/
theorem cache_upsert_overwrite (c : MetadataCache) (x : String)
    (A B : SongMetadata) (t1 t2 t3 t4 : ℚ) :
    ((c.save_metadata x A t1).get_metadata x t2).2 = some A ∧
    ((((c.save_metadata x A t1).get_metadata x t2).1.save_metadata x B t3).get_metadata x t4).2
      = some B ∧
    ((((c.save_metadata x A t1).get_metadata x t2).1.save_metadata x B t3).rows).countP
      (fun r => r.url == x) = 1 := by
  refine ⟨get_after_save c x A t1 t2, get_after_save _ x B t3 t4, countP_after_save _ x B t3⟩

/-- `SessionData` dataclass, `enhanced_session_manager.py` lines 16-29. -/
structure SessionData where
  session_id : String
  name : String
  created : ℚ
  last_accessed : ℚ
  current_index : Int
  total_songs : Int
  videos : List String
  current_url : Option String := none
  play_count : Int := 0
  version : String := "4.2"
deriving DecidableEq

/-- `SessionManager` state: the sessions directory (one persisted record per
`{session_id}.json` file) and the active-session pointer,
`enhanced_session_manager.py` lines 51-58. -/
structure SessionManager where
  files : List SessionData
  current_session : Option SessionData := none
deriving DecidableEq

/-- `SessionManager._save_session`, `enhanced_session_manager.py` lines 96-103:
writing `{session_id}.json` overwrites the record with that id, or creates a
new file when none exists. -/
def saveSessionFile (s : SessionData) (files : List SessionData) : List SessionData :=
  if files.any (fun t => t.session_id == s.session_id) then
    files.map (fun t => if t.session_id == s.session_id then s else t)
  else
    files ++ [s]

/-- `SessionManager.create_session`, `enhanced_session_manager.py` lines 72-94.
`sid` stands for the hash-derived id of `_generate_session_id` (an external
hash of content sample plus clock) and `autoname` for the
`Session_{timestamp}` default name; Python treats an empty string name as
absent (`if not name`). -/
def SessionManager.create_session (mgr : SessionManager) (videos : List String)
    (name : Option String) (sid : String) (autoname : String) (now : ℚ) :
    SessionManager × SessionData :=
  let nm := match name with
    | some n => if n == "" then autoname else n
    | none => autoname
  let s : SessionData :=
    { session_id := sid
      name := nm
      created := now
      last_accessed := now
      current_index := 0
      total_songs := (videos.length : Int)
      videos := videos
      current_url := none
      play_count := 0
      version := "4.2" }
  ({ files := saveSessionFile s mgr.files, current_session := some s }, s)

/-- `SessionManager.load_session`, `enhanced_session_manager.py` lines 105-136.
The backward-compatibility steps (renaming the old `index` key, defaulting
`play_count`/`version`) are the identity on records that already carry every
field, as every record in this model does. On success the record's
`last_accessed` is refreshed and re-persisted. -/
def SessionManager.load_session (mgr : SessionManager) (sid : String) (now : ℚ) :
    SessionManager × Option SessionData :=
  match mgr.files.find? (fun t => t.session_id == sid) with
  | none => (mgr, none)
  | some data =>
      let s := { data with last_accessed := now }
      ({ files := saveSessionFile s mgr.files, current_session := some s }, some s)

/-- `SessionManager.update_session_progress`, `enhanced_session_manager.py`
lines 183-191. Python's `if current_url:` treats `None` and the empty string
as absent. -/
def SessionManager.update_session_progress (mgr : SessionManager)
    (current_index : Int) (current_url : Option String) (now : ℚ) : SessionManager :=
  match mgr.current_session with
  | none => mgr
  | some s =>
      let s2 : SessionData :=
        { s with
          current_index := current_index
          last_accessed := now
          play_count := s.play_count + 1
          current_url := match current_url with
            | some u => if u == "" then s.current_url else some u
            | none => s.current_url }
      { files := saveSessionFile s2 mgr.files, current_session := some s2 }

/-- `SessionManager.list_sessions`, `enhanced_session_manager.py` lines
138-153: all persisted sessions sorted by last-access time, most recent
first (Python's stable sort with `reverse=True`). -/
def SessionManager.list_sessions (mgr : SessionManager) : List SessionData :=
  mgr.files.mergeSort (fun a b => decide (b.last_accessed ≤ a.last_accessed))

/-- The age cutoff of `cleanup_old_sessions`, `enhanced_session_manager.py`
line 165: `time.time() - (max_age_days * 24 * 3600)`. -/
def sessionCutoff (now max_age_days : ℚ) : ℚ :=
  now - max_age_days * 24 * 3600

/-- The `to_keep` set of `cleanup_old_sessions`, `enhanced_session_manager.py`
lines 159-162: ids of the `keep_recent` most recently used sessions. -/
def keptIds (mgr : SessionManager) (keep_recent : Nat) : List String :=
  (mgr.list_sessions.take keep_recent).map (fun s => s.session_id)

/-- The ids whose files `cleanup_old_sessions` unlinks,
`enhanced_session_manager.py` lines 168-178: sessions not in `to_keep` whose
last access predates the cutoff. -/
def deletedIds (mgr : SessionManager) (max_age_days : ℚ) (keep_recent : Nat)
    (now : ℚ) : List String :=
  (mgr.list_sessions.filter (fun s =>
      !(decide (s.session_id ∈ keptIds mgr keep_recent)) &&
      decide (s.last_accessed < sessionCutoff now max_age_days))).map
    (fun s => s.session_id)

/-- `SessionManager.cleanup_old_sessions`, `enhanced_session_manager.py`
lines 155-181: keep the ids of the `keep_recent` most recently used sessions,
then unlink every session file whose record is older than the cutoff and not
among the kept ids. -/
def SessionManager.cleanup_old_sessions (mgr : SessionManager)
    (max_age_days : ℚ) (keep_recent : Nat) (now : ℚ) : SessionManager :=
  { mgr with
    files := mgr.files.filter
      (fun s => !(decide (s.session_id ∈ deletedIds mgr max_age_days keep_recent now))) }

theorem find?_map_replace (s : SessionData) (l : List SessionData)
    (h : l.any (fun t => t.session_id == s.session_id) = true) :
    (l.map (fun t => if t.session_id == s.session_id then s else t)).find?
      (fun t => t.session_id == s.session_id) = some s := by
  induction l with
  | nil => simp at h
  | cons x xs ih =>
      show List.find? (fun t => t.session_id == s.session_id)
        ((if x.session_id == s.session_id then s else x) ::
          xs.map (fun t => if t.session_id == s.session_id then s else t)) = some s
      by_cases hx : x.session_id = s.session_id
      · have hb : (x.session_id == s.session_id) = true := by simpa using hx
        have hd : (if x.session_id == s.session_id then s else x) = s := by
          simp [hb]
        rw [hd]
        exact List.find?_cons_of_pos _ (beq_self_eq_true s.session_id)
      · have hb : (x.session_id == s.session_id) = false := by simpa using hx
        have hd : (if x.session_id == s.session_id then s else x) = x := by
          simp [hb]
        have hxs : xs.any (fun t => t.session_id == s.session_id) = true := by
          simpa [List.any_cons, hb] using h
        rw [hd, List.find?_cons_of_neg _ (by simp [hb])]
        exact ih hxs

theorem saveSessionFile_find (s : SessionData) (files : List SessionData) :
    (saveSessionFile s files).find? (fun t => t.session_id == s.session_id) = some s := by
  unfold saveSessionFile
  by_cases h : files.any (fun t => t.session_id == s.session_id) = true
  · rw [if_pos h]
    exact find?_map_replace s files h
  · rw [if_neg h]
    rw [List.find?_append]
    have hnone : files.find? (fun t => t.session_id == s.session_id) = none := by
      rw [List.find?_eq_none]
      intro x hx hcontra
      exact h (List.any_eq_true.mpr ⟨x, hx, hcontra⟩)
    simp [hnone, List.find?_cons]

theorem load_session_of_find (mgr : SessionManager) (sid : String) (now : ℚ)
    (s : SessionData)
    (h : mgr.files.find? (fun t => t.session_id == sid) = some s) :
    (mgr.load_session sid now).2 = some { s with last_accessed := now } := by
  unfold SessionManager.load_session
  rw [h]

/-- Claim C7: creating a session from a list of `N` locators, persisting it,
and loading it back by its id yields a session whose ordered locator list is
the original list and whose total count is `N`. -/
theorem session_round_trip (mgr : SessionManager) (videos : List String)
    (name : Option String) (sid : String) (autoname : String) (now1 now2 : ℚ) :
    ∃ s2 : SessionData,
      ((mgr.create_session videos name sid autoname now1).1.load_session
          (mgr.create_session videos name sid autoname now1).2.session_id now2).2 = some s2 ∧
      s2.videos = videos ∧
      s2.total_songs = (videos.length : Int) := by
  have hfind :
      ((mgr.create_session videos name sid autoname now1).1).files.find?
        (fun t => t.session_id == (mgr.create_session videos name sid autoname now1).2.session_id)
        = some (mgr.create_session videos name sid autoname now1).2 :=
    saveSessionFile_find _ _
  refine ⟨{ (mgr.create_session videos name sid autoname now1).2 with last_accessed := now2 },
    ?_, rfl, rfl⟩
  exact load_session_of_find _ _ _ _ hfind

/-- Claim C8: with an active session, calling `update_session_progress(k, loc)`
twice in succession leaves both the in-memory session and the persisted record
with resume offset exactly `k`. -/
theorem update_progress_idempotent (mgr : SessionManager) (s : SessionData)
    (k : Int) (loc : Option String) (now1 now2 : ℚ)
    (hs : mgr.current_session = some s) :
    ∃ s2 : SessionData,
      ((mgr.update_session_progress k loc now1).update_session_progress k loc now2).current_session
        = some s2 ∧
      s2.current_index = k ∧
      (((mgr.update_session_progress k loc now1).update_session_progress k loc now2).files.find?
        (fun t => t.session_id == s2.session_id)) = some s2 := by
  unfold SessionManager.update_session_progress
  rw [hs]
  simp only []
  refine ⟨_, rfl, rfl, ?_⟩
  exact saveSessionFile_find _ _

/-- A concrete session record used to witness C8. -/
def c8sess : SessionData :=
  { session_id := "id0"
    name := "n"
    created := 0
    last_accessed := 0
    current_index := 0
    total_songs := 3
    videos := ["a", "b", "c"] }

/-- A concrete manager with `c8sess` active, used to witness C8. -/
def c8mgr : SessionManager :=
  { files := [c8sess], current_session := some c8sess }

/-- Witness for C8 at a concrete manager with one active session. -/
theorem update_progress_idempotent_witness :
    ∃ s2 : SessionData,
      ((c8mgr.update_session_progress 2 (some "b") 5).update_session_progress
          2 (some "b") 6).current_session = some s2 ∧
      s2.current_index = 2 ∧
      (((c8mgr.update_session_progress 2 (some "b") 5).update_session_progress
          2 (some "b") 6).files.find?
        (fun t => t.session_id == s2.session_id)) = some s2 :=
  update_progress_idempotent c8mgr c8sess 2 (some "b") 5 6 rfl

theorem deletedIds_mem_iff (mgr : SessionManager) (max_age_days : ℚ)
    (keep_recent : Nat) (now : ℚ)
    (hids : (mgr.files.map (fun s => s.session_id)).Nodup)
    (s : SessionData) (hs : s ∈ mgr.files) :
    s.session_id ∈ deletedIds mgr max_age_days keep_recent now ↔
      (s.session_id ∉ keptIds mgr keep_recent ∧
       s.last_accessed < sessionCutoff now max_age_days) := by
  have hperm : (mgr.list_sessions).Perm mgr.files := List.mergeSort_perm _ _
  constructor
  · intro hmem
    obtain ⟨t, ht, hts⟩ := List.mem_map.mp hmem
    obtain ⟨htses, htcond⟩ := List.mem_filter.mp ht
    have hteq : t = s :=
      List.inj_on_of_nodup_map hids (hperm.mem_iff.mp htses) hs hts
    subst hteq
    simpa using htcond
  · rintro ⟨hnk, hold⟩
    refine List.mem_map.mpr ⟨s, List.mem_filter.mpr ⟨hperm.mem_iff.mpr hs, ?_⟩, rfl⟩
    simp [hnk, hold]

/-- Claim C9: `cleanup_old_sessions` deletes exactly the persisted sessions
whose last access predates the age cutoff and that are not among the
`keep_recent` most recently used; the `keep_recent` most recently used are
always retained regardless of age. (Session ids are distinct because each
session is one file named by its id.) -/
theorem cleanup_policy (mgr : SessionManager) (max_age_days : ℚ)
    (keep_recent : Nat) (now : ℚ)
    (hids : (mgr.files.map (fun s => s.session_id)).Nodup) :
    (∀ s, s ∈ mgr.files →
      (s ∈ (mgr.cleanup_old_sessions max_age_days keep_recent now).files ↔
        ¬(s.last_accessed < sessionCutoff now max_age_days ∧
          s.session_id ∉ keptIds mgr keep_recent))) ∧
    (∀ s, s ∈ mgr.list_sessions.take keep_recent →
      s ∈ (mgr.cleanup_old_sessions max_age_days keep_recent now).files) := by
  have hperm : (mgr.list_sessions).Perm mgr.files := List.mergeSort_perm _ _
  constructor
  · intro s hs
    have hfilter :
        s ∈ (mgr.cleanup_old_sessions max_age_days keep_recent now).files ↔
          s ∈ mgr.files ∧
            (!(decide (s.session_id ∈ deletedIds mgr max_age_days keep_recent now))) = true :=
      List.mem_filter
    rw [hfilter]
    have hdel := deletedIds_mem_iff mgr max_age_days keep_recent now hids s hs
    simp only [Bool.not_eq_true', decide_eq_false_iff_not, hdel, hs, true_and]
    tauto
  · intro s hstake
    have hsmem : s ∈ mgr.files := hperm.mem_iff.mp (List.take_subset _ _ hstake)
    have hkept : s.session_id ∈ keptIds mgr keep_recent :=
      List.mem_map.mpr ⟨s, hstake, rfl⟩
    have hnotdel : s.session_id ∉ deletedIds mgr max_age_days keep_recent now :=
      fun hcon =>
        ((deletedIds_mem_iff mgr max_age_days keep_recent now hids s hsmem).mp hcon).1 hkept
    exact List.mem_filter.mpr ⟨hsmem, by simp [hnotdel]⟩

/-- A second concrete session, old enough to be deleted by cleanup. -/
def c9old : SessionData :=
  { session_id := "idOld"
    name := "old"
    created := 0
    last_accessed := 0
    current_index := 0
    total_songs := 1
    videos := ["v"] }

/-- A concrete manager holding a fresh session and an old one. -/
def c9mgr : SessionManager :=
  { files := [c8sess, { c9old with last_accessed := 0 }], current_session := none }

/-- Witness for C9: on a concrete two-session store with distinct ids, the
retained set is characterized as the theorem states. -/
theorem cleanup_policy_witness :
    (∀ s, s ∈ c9mgr.files →
      (s ∈ (c9mgr.cleanup_old_sessions 7 1 (10 * 24 * 3600)).files ↔
        ¬(s.last_accessed < sessionCutoff (10 * 24 * 3600) 7 ∧
          s.session_id ∉ keptIds c9mgr 1))) ∧
    (∀ s, s ∈ c9mgr.list_sessions.take 1 →
      s ∈ (c9mgr.cleanup_old_sessions 7 1 (10 * 24 * 3600)).files) :=
  cleanup_policy c9mgr 7 1 (10 * 24 * 3600) (by decide)

/-- `SourceType` from `fast_queue_manager.py` lines 24-26. -/
inductive SourceType where
  | LOCAL_FILE
  | YOUTUBE_URL
deriving DecidableEq

/-- `QueueItem` dataclass, `fast_queue_manager.py` lines 28-36. -/
structure QueueItem where
  source_type : SourceType
  path_or_url : String
  metadata : Option SongMetadata := none
  metadata_ready : Bool := false
  acoustid_analyzed : Bool := false
  analysis_in_progress : Bool := false
  priority : Int := 0
deriving DecidableEq

/-- The mutable state of `FastQueueManager` that `get_next_song` and the
analysis workers touch: the three collections, the `local_files_exhausted`
flag (initialized `False` at line 53 and never assigned elsewhere in the
repository), the session manager, and the active-session pointer
(`fast_queue_manager.py` lines 46-53 and 70-71). -/
structure FastQueueManager where
  local_queue : List QueueItem := []
  youtube_queue : List QueueItem := []
  ready_queue : List QueueItem := []
  local_files_exhausted : Bool := false
  session_manager : SessionManager := { files := [] }
  current_session : Option SessionData := none
deriving DecidableEq

/-- The session-progress block repeated in each remote branch of
`get_next_song` (`fast_queue_manager.py` lines 315-318, 324-327, 331-334),
applied to the state after the item has been popped: if a session is active,
`current_pos = total_songs - (len(youtube_queue) + len(ready_queue))` is
written through `update_session_progress`. -/
def FastQueueManager.track_progress (fqm : FastQueueManager) (item : QueueItem)
    (now : ℚ) : FastQueueManager :=
  match fqm.current_session with
  | none => fqm
  | some s =>
      let remaining_in_queue : Int :=
        (fqm.youtube_queue.length : Int) + (fqm.ready_queue.length : Int)
      let current_pos : Int := s.total_songs - remaining_in_queue
      { fqm with
        session_manager :=
          fqm.session_manager.update_session_progress current_pos
            (some item.path_or_url) now }

/-- The scan of `fast_queue_manager.py` lines 321-328: find the first backlog
item with `metadata_ready` and remove it, returning the item and the rest of
the backlog; `none` when no item is ready. -/
def findFirstReady : List QueueItem → Option (QueueItem × List QueueItem)
  | [] => none
  | it :: rest =>
      if it.metadata_ready then
        some (it, rest)
      else
        match findFirstReady rest with
        | some (found, remaining) => some (found, it :: remaining)
        | none => none

/-- `FastQueueManager.get_next_song`, `fast_queue_manager.py` lines 308-337. -/
def FastQueueManager.get_next_song (fqm : FastQueueManager) (now : ℚ) :
    FastQueueManager × Option QueueItem :=
  match fqm.local_files_exhausted, fqm.local_queue with
  | false, item :: rest => ({ fqm with local_queue := rest }, some item)
  | _, _ =>
      match fqm.ready_queue with
      | item :: rest =>
          let fqm1 := { fqm with ready_queue := rest }
          (fqm1.track_progress item now, some item)
      | [] =>
          match findFirstReady fqm.youtube_queue with
          | some (item, remaining) =>
              let fqm1 := { fqm with youtube_queue := remaining }
              (fqm1.track_progress item now, some item)
          | none =>
              match fqm.youtube_queue with
              | item :: rest =>
                  let fqm1 := { fqm with youtube_queue := rest }
                  (fqm1.track_progress item now, some item)
              | [] => (fqm, none)

/-- The item-field updates of the success path of `_analyze_item`,
`fast_queue_manager.py` lines 256-270: `acoustid_analyzed` is set when the
resolved source is ACOUSTID or a fingerprint lookup was attempted, then the
descriptor is stored and the item marked ready and no longer in flight. -/
def analyzedOk (item : QueueItem) (metadata : SongMetadata) : QueueItem :=
  { item with
    acoustid_analyzed := item.acoustid_analyzed ||
      (metadata.source == MetadataSource.ACOUSTID) || metadata.acoustid_attempted
    metadata := some metadata
    metadata_ready := true
    analysis_in_progress := false }

/-- The item-field updates of the exception path of `_analyze_item`,
`fast_queue_manager.py` lines 280-285: clear the in-flight flag, substitute a
default `SongMetadata()` when the item has none, and mark it ready. -/
def analyzedErr (item : QueueItem) : QueueItem :=
  { item with
    analysis_in_progress := false
    metadata := some (item.metadata.getD {})
    metadata_ready := true }

/-- `FastQueueManager._analyze_item`, `fast_queue_manager.py` lines 249-285,
acting on the backlog item at index `i` (the Python code mutates the item
object in place inside `youtube_queue`). The metadata fetcher's outcome is
passed in as an `Except` value. On success the item is appended to the ready
buffer when its metadata is complete or its source is ACOUSTID/MUSICBRAINZ
(lines 271-274); the item is not removed from `youtube_queue`. -/
def FastQueueManager.analyze_item_at (fqm : FastQueueManager) (i : Nat)
    (result : Except String SongMetadata) : FastQueueManager :=
  match fqm.youtube_queue[i]? with
  | none => fqm
  | some item =>
      match result with
      | Except.ok metadata =>
          let item2 := analyzedOk item metadata
          let fqm2 := { fqm with youtube_queue := fqm.youtube_queue.set i item2 }
          if metadata.is_complete_metadata ||
              (metadata.source == MetadataSource.ACOUSTID) ||
              (metadata.source == MetadataSource.MUSICBRAINZ) then
            { fqm2 with ready_queue := fqm2.ready_queue ++ [item2] }
          else
            fqm2
      | Except.error _ =>
          { fqm with youtube_queue := fqm.youtube_queue.set i (analyzedErr item) }

/-- The claim step of the analysis worker loop, `fast_queue_manager.py` lines
226-232, executed under `queue_lock`: scan the backlog for the first item
with `metadata_ready=False` and `analysis_in_progress=False`, set its
`analysis_in_progress=True` in place, and return its position together with
the updated backlog; `none` when no item is claimable. -/
def scanClaim : List QueueItem → Option (Nat × List QueueItem)
  | [] => none
  | it :: rest =>
      if !it.metadata_ready && !it.analysis_in_progress then
        some (0, { it with analysis_in_progress := true } :: rest)
      else
        match scanClaim rest with
        | some (i, remaining) => some (i + 1, it :: remaining)
        | none => none

/-- A remote backlog item mid-analysis, used to exhibit the double-membership
behaviour of `_analyze_item`. -/
def c1item : QueueItem :=
  { source_type := SourceType.YOUTUBE_URL
    path_or_url := "u0"
    analysis_in_progress := true }

/-- A fully resolved descriptor for `c1item`. -/
def c1meta : SongMetadata :=
  { title := "T"
    artist := "A"
    album := "L"
    duration := 180
    confidence := 9/10
    source := MetadataSource.ACOUSTID }

/-- A manager whose backlog holds only `c1item`. -/
def c1fqm : FastQueueManager :=
  { youtube_queue := [c1item] }

/-- Claim C1: after a successful analysis of the single backlog item, the item
is a member of both `youtube_queue` and `ready_queue` simultaneously (the code
appends to the ready buffer without removing from the backlog), and two
successive `get_next_song` calls hand out that same item twice — the
exclusive-membership/conservation invariant fails on the code. -/
theorem exclusive_membership_fails :
    (c1fqm.analyze_item_at 0 (Except.ok c1meta)).youtube_queue
      = [analyzedOk c1item c1meta] ∧
    (c1fqm.analyze_item_at 0 (Except.ok c1meta)).ready_queue
      = [analyzedOk c1item c1meta] ∧
    ((c1fqm.analyze_item_at 0 (Except.ok c1meta)).get_next_song 0).2
      = some (analyzedOk c1item c1meta) ∧
    ((((c1fqm.analyze_item_at 0 (Except.ok c1meta)).get_next_song 0).1.get_next_song 0)).2
      = some (analyzedOk c1item c1meta) := by
  have hcomp : c1meta.is_complete_metadata = true := by
    rw [SongMetadata.is_complete_metadata]
    norm_num [c1meta]
    decide
  have hstate : c1fqm.analyze_item_at 0 (Except.ok c1meta) =
      { youtube_queue := [analyzedOk c1item c1meta]
        ready_queue := [analyzedOk c1item c1meta] } := by
    rw [FastQueueManager.analyze_item_at]
    simp [c1fqm, hcomp]
  refine ⟨by rw [hstate], by rw [hstate], ?_, ?_⟩ <;>
    rw [hstate] <;>
    simp [FastQueueManager.get_next_song, FastQueueManager.track_progress,
      findFirstReady, c1item, analyzedOk]

theorem get_next_song_none_iff (fqm : FastQueueManager) (now : ℚ) :
    ((fqm.get_next_song now).2 = none) ↔
      ((fqm.local_files_exhausted = true ∨ fqm.local_queue = []) ∧
       fqm.ready_queue = [] ∧ fqm.youtube_queue = []) := by
  obtain ⟨lq, yq, rq, ex, sm, cs⟩ := fqm
  cases ex <;> cases lq <;> cases rq <;>
    simp_all [FastQueueManager.get_next_song] <;>
    cases hscan : findFirstReady yq <;>
    cases yq <;>
    simp_all [findFirstReady]

/-- Claim C5: a backlog item whose analysis raises ends with
`metadata_ready=true`, `analysis_in_progress=false`, a baseline descriptor if
it had none (its existing one otherwise), an unchanged ready buffer and local
queue, and — when local and ready queues are empty — it keeps `get_next_song`
returning an item via the backlog path instead of returning none. -/
theorem analysis_failure_recovers (fqm : FastQueueManager) (i : Nat)
    (item : QueueItem) (e : String)
    (h : fqm.youtube_queue[i]? = some item) :
    ((fqm.analyze_item_at i (Except.error e)).youtube_queue[i]?
        = some (analyzedErr item)) ∧
    (analyzedErr item).metadata_ready = true ∧
    (analyzedErr item).analysis_in_progress = false ∧
    (item.metadata = none → (analyzedErr item).metadata = some {}) ∧
    (∀ m, item.metadata = some m → (analyzedErr item).metadata = some m) ∧
    ((fqm.analyze_item_at i (Except.error e)).ready_queue = fqm.ready_queue) ∧
    ((fqm.analyze_item_at i (Except.error e)).local_queue = fqm.local_queue) ∧
    (∀ now : ℚ,
      (((fqm.analyze_item_at i (Except.error e)).get_next_song now).2).isSome = true) := by
  have hlen : i < fqm.youtube_queue.length := by
    by_contra hcon
    rw [List.getElem?_eq_none (Nat.le_of_not_lt hcon)] at h
    exact Option.noConfusion h
  refine ⟨?_, rfl, rfl, ?_, ?_, ?_, ?_, ?_⟩
  · unfold FastQueueManager.analyze_item_at
    rw [h]
    exact List.getElem?_set_self hlen
  · intro hm
    simp [analyzedErr, hm]
  · intro m hm
    simp [analyzedErr, hm]
  · unfold FastQueueManager.analyze_item_at
    rw [h]
  · unfold FastQueueManager.analyze_item_at
    rw [h]
  · intro now
    rw [Option.isSome_iff_ne_none]
    intro hnone
    have hchar := (get_next_song_none_iff (fqm.analyze_item_at i (Except.error e)) now).mp hnone
    have hyt : (fqm.analyze_item_at i (Except.error e)).youtube_queue = [] := hchar.2.2
    have h0 : (fqm.analyze_item_at i (Except.error e)).youtube_queue[i]?
        = some (analyzedErr item) := by
      unfold FastQueueManager.analyze_item_at
      rw [h]
      exact List.getElem?_set_self hlen
    rw [hyt] at h0
    simp at h0

/-- A concrete unresolved backlog item whose analysis will fail. -/
def c5item : QueueItem :=
  { source_type := SourceType.YOUTUBE_URL
    path_or_url := "u5"
    analysis_in_progress := true }

/-- A manager whose backlog holds only `c5item`. -/
def c5fqm : FastQueueManager :=
  { youtube_queue := [c5item] }

/-- Witness for C5 on a backlog of one item whose resolver call fails. -/
theorem analysis_failure_recovers_witness :
    ((c5fqm.analyze_item_at 0 (Except.error "boom")).youtube_queue[0]?
        = some (analyzedErr c5item)) ∧
    (analyzedErr c5item).metadata_ready = true ∧
    (analyzedErr c5item).analysis_in_progress = false ∧
    (c5item.metadata = none → (analyzedErr c5item).metadata = some {}) ∧
    (∀ m, c5item.metadata = some m → (analyzedErr c5item).metadata = some m) ∧
    ((c5fqm.analyze_item_at 0 (Except.error "boom")).ready_queue = c5fqm.ready_queue) ∧
    ((c5fqm.analyze_item_at 0 (Except.error "boom")).local_queue = c5fqm.local_queue) ∧
    (∀ now : ℚ,
      (((c5fqm.analyze_item_at 0 (Except.error "boom")).get_next_song now).2).isSome = true) :=
  analysis_failure_recovers c5fqm 0 c5item "boom" rfl

/-- The spec's §3 notion of a "complete" descriptor, transcribed from its
wording for comparison with the code's `is_complete_metadata`: title, artist
and collection beyond placeholder values, positive duration, and confidence at
or above the configured threshold (0.7 in this program) or fingerprint
provenance. -/
def specCompleteDescriptor (m : SongMetadata) : Prop :=
  m.title ≠ "Unknown Title" ∧ m.artist ≠ "Unknown Artist" ∧
  m.album ≠ "Unknown Album" ∧ m.duration > 0 ∧
  (m.confidence ≥ 7/10 ∨ m.source = MetadataSource.ACOUSTID)

/-- The spec's §4.4 step-4 routing condition, transcribed from its wording:
the descriptor is complete, or its provenance is the fingerprint match
(ACOUSTID) or the text-search match (MUSICBRAINZ). -/
def specReadyRouting (m : SongMetadata) : Prop :=
  specCompleteDescriptor m ∨ m.source = MetadataSource.ACOUSTID ∨
    m.source = MetadataSource.MUSICBRAINZ

theorem routing_cond_iff (m : SongMetadata) :
    (m.is_complete_metadata ||
      (m.source == MetadataSource.ACOUSTID) ||
      (m.source == MetadataSource.MUSICBRAINZ)) = true ↔ specReadyRouting m := by
  simp [SongMetadata.is_complete_metadata, specReadyRouting, specCompleteDescriptor,
    Bool.or_eq_true, Bool.and_eq_true, decide_eq_true_eq, beq_iff_eq]
  tauto

/-- Claim C6: after a successful analysis, the item is appended to the ready
buffer exactly when its resolved descriptor is complete in the spec's sense
(non-placeholder title/artist/album, positive duration, confidence at or
above the 0.7 threshold or ACOUSTID provenance) or its source is the
fingerprint match (ACOUSTID) or the text-search match (MUSICBRAINZ);
otherwise the ready buffer is unchanged. -/
theorem ready_routing (fqm : FastQueueManager) (i : Nat) (item : QueueItem)
    (m : SongMetadata) (h : fqm.youtube_queue[i]? = some item) :
    ((fqm.analyze_item_at i (Except.ok m)).ready_queue
        = fqm.ready_queue ++ [analyzedOk item m] ↔ specReadyRouting m) ∧
    (¬ specReadyRouting m →
      (fqm.analyze_item_at i (Except.ok m)).ready_queue = fqm.ready_queue) := by
  have hcases :
      (fqm.analyze_item_at i (Except.ok m)).ready_queue =
        if (m.is_complete_metadata ||
            (m.source == MetadataSource.ACOUSTID) ||
            (m.source == MetadataSource.MUSICBRAINZ)) then
          fqm.ready_queue ++ [analyzedOk item m]
        else fqm.ready_queue := by
    unfold FastQueueManager.analyze_item_at
    rw [h]
    by_cases hc : (m.is_complete_metadata ||
        (m.source == MetadataSource.ACOUSTID) ||
        (m.source == MetadataSource.MUSICBRAINZ)) = true
    · simp [hc]
    · simp [hc]
  constructor
  · constructor
    · intro happ
      by_contra hnot
      have hcb : (m.is_complete_metadata ||
          (m.source == MetadataSource.ACOUSTID) ||
          (m.source == MetadataSource.MUSICBRAINZ)) = false := by
        rcases Bool.eq_false_or_eq_true (m.is_complete_metadata ||
            (m.source == MetadataSource.ACOUSTID) ||
            (m.source == MetadataSource.MUSICBRAINZ)) with ht | hf
        · exact absurd ((routing_cond_iff m).mp ht) hnot
        · exact hf
      rw [hcases, hcb] at happ
      simp at happ
    · intro hspec
      rw [hcases, if_pos ((routing_cond_iff m).mpr hspec)]
  · intro hnot
    have hcb : (m.is_complete_metadata ||
        (m.source == MetadataSource.ACOUSTID) ||
        (m.source == MetadataSource.MUSICBRAINZ)) = false := by
      rcases Bool.eq_false_or_eq_true (m.is_complete_metadata ||
          (m.source == MetadataSource.ACOUSTID) ||
          (m.source == MetadataSource.MUSICBRAINZ)) with ht | hf
      · exact absurd ((routing_cond_iff m).mp ht) hnot
      · exact hf
    rw [hcases, hcb]
    simp

/-- Witness for C6: the analysis of `c1fqm`'s single backlog item with the
fully resolved descriptor `c1meta` routes it into the ready buffer, and the
routing condition holds of `c1meta`. -/
theorem ready_routing_witness :
    ((c1fqm.analyze_item_at 0 (Except.ok c1meta)).ready_queue
        = c1fqm.ready_queue ++ [analyzedOk c1item c1meta] ↔ specReadyRouting c1meta) ∧
    (¬ specReadyRouting c1meta →
      (c1fqm.analyze_item_at 0 (Except.ok c1meta)).ready_queue = c1fqm.ready_queue) :=
  ready_routing c1fqm 0 c1item c1meta rfl

theorem findFirstReady_eq_none (l : List QueueItem)
    (h : ∀ it ∈ l, it.metadata_ready = false) :
    findFirstReady l = none := by
  induction l with
  | nil => rfl
  | cons x xs ih =>
      have hx : x.metadata_ready = false := h x (List.mem_cons_self x xs)
      have hxs : findFirstReady xs = none :=
        ih (fun it hit => h it (List.mem_cons_of_mem x hit))
      unfold findFirstReady
      rw [hx, hxs]
      simp

theorem findFirstReady_first (l : List QueueItem) (i : Nat) (item : QueueItem)
    (hi : l[i]? = some item) (hready : item.metadata_ready = true)
    (hbefore : ∀ j, j < i → ∀ jt, l[j]? = some jt → jt.metadata_ready = false) :
    ∃ remaining, findFirstReady l = some (item, remaining) := by
  induction l generalizing i with
  | nil => simp at hi
  | cons x xs ih =>
      cases i with
      | zero =>
          have hx : x = item := by simpa using hi
          subst hx
          refine ⟨xs, ?_⟩
          unfold findFirstReady
          rw [hready]
          simp
      | succ k =>
          have hx : x.metadata_ready = false := by
            have := hbefore 0 (Nat.succ_pos k) x (by simp)
            exact this
          have hk : xs[k]? = some item := by simpa using hi
          have hkbefore : ∀ j, j < k → ∀ jt, xs[j]? = some jt → jt.metadata_ready = false := by
            intro j hj jt hjt
            refine hbefore (j + 1) (Nat.succ_lt_succ hj) jt ?_
            simpa using hjt
          obtain ⟨rem, hrem⟩ := ih k hk hkbefore
          refine ⟨x :: rem, ?_⟩
          unfold findFirstReady
          rw [hx, hrem]
          simp

/-- Claim C2: the dequeue priority policy of `get_next_song` when the
`local_files_exhausted` flag is false (its value in every execution: the flag
is initialized `False` and never assigned): a non-empty local queue is popped
first; otherwise a non-empty ready buffer is popped; otherwise the first
backlog item with `metadata_ready` is returned, or the literal backlog head
when none is ready; and the call returns none exactly when all three
collections are empty. -/
theorem dequeue_priority (fqm : FastQueueManager) (now : ℚ)
    (hex : fqm.local_files_exhausted = false) :
    (∀ item rest, fqm.local_queue = item :: rest →
        fqm.get_next_song now = ({ fqm with local_queue := rest }, some item)) ∧
    (∀ item rest, fqm.local_queue = [] → fqm.ready_queue = item :: rest →
        ((fqm.get_next_song now).2 = some item ∧
         (fqm.get_next_song now).1.ready_queue = rest)) ∧
    (∀ (i : Nat) (item : QueueItem), fqm.local_queue = [] → fqm.ready_queue = [] →
        fqm.youtube_queue[i]? = some item → item.metadata_ready = true →
        (∀ j : Nat, j < i → ∀ jt : QueueItem,
          fqm.youtube_queue[j]? = some jt → jt.metadata_ready = false) →
        (fqm.get_next_song now).2 = some item) ∧
    (fqm.local_queue = [] → fqm.ready_queue = [] →
        (∀ it ∈ fqm.youtube_queue, it.metadata_ready = false) →
        (fqm.get_next_song now).2 = fqm.youtube_queue.head?) ∧
    ((fqm.get_next_song now).2 = none ↔
        fqm.local_queue = [] ∧ fqm.ready_queue = [] ∧ fqm.youtube_queue = []) := by
  obtain ⟨lq, yq, rq, ex, sm, cs⟩ := fqm
  simp only at hex
  subst hex
  refine ⟨?_, ?_, ?_, ?_, ?_⟩
  · intro item rest hl
    simp only at hl
    subst hl
    rfl
  · intro item rest hl hr
    simp only at hl hr
    subst hl
    subst hr
    simp [FastQueueManager.get_next_song, FastQueueManager.track_progress]
    cases cs <;> simp
  · intro i item hl hr hi hready hbefore
    simp only at hl hr hi
    subst hl
    subst hr
    obtain ⟨rem, hrem⟩ := findFirstReady_first yq i item hi hready hbefore
    simp [FastQueueManager.get_next_song, hrem, FastQueueManager.track_progress]
  · intro hl hr hnone
    simp only at hl hr hnone
    subst hl
    subst hr
    have hscan : findFirstReady yq = none := findFirstReady_eq_none yq hnone
    cases yq with
    | nil => simp [FastQueueManager.get_next_song, hscan]
    | cons y ys =>
        simp [FastQueueManager.get_next_song, hscan, FastQueueManager.track_progress]
  · have hiff := get_next_song_none_iff ⟨lq, yq, rq, false, sm, cs⟩ now
    simpa using hiff

/-- A concrete local item. -/
def c2item : QueueItem :=
  { source_type := SourceType.LOCAL_FILE
    path_or_url := "/music/a.flac"
    metadata_ready := true
    priority := 2 }

/-- A manager holding only the local item `c2item`. -/
def c2fqm : FastQueueManager :=
  { local_queue := [c2item] }

/-- Witness for C2: on a manager with one local item, `get_next_song` pops and
returns it. -/
theorem dequeue_priority_witness :
    c2fqm.get_next_song 0 = ({ c2fqm with local_queue := [] }, some c2item) :=
  (dequeue_priority c2fqm 0 rfl).1 c2item [] rfl

/-- A concrete active session of five songs, none yet played. -/
def c3sess : SessionData :=
  { session_id := "s3"
    name := "n3"
    created := 0
    last_accessed := 0
    current_index := 0
    total_songs := 5
    videos := ["a", "b", "c", "d", "e"] }

/-- A concrete local item for the C3 counterexample. -/
def c3item : QueueItem :=
  { source_type := SourceType.LOCAL_FILE
    path_or_url := "/music/c.flac"
    metadata_ready := true }

/-- A manager with an active session whose local queue holds `c3item`. -/
def c3fqm : FastQueueManager :=
  { local_queue := [c3item]
    session_manager := { files := [c3sess], current_session := some c3sess }
    current_session := some c3sess }

/-- Counterexample to C3 as stated: with an active session, a successful
`get_next_song` return from the local queue leaves the session store untouched
(offset still 0), while the claimed update would set it to
`total_songs - (0 + 0) = 5`. -/
theorem progress_not_updated_on_local_dequeue :
    ((c3fqm.get_next_song 0).2 = some c3item) ∧
    ((c3fqm.get_next_song 0).1.session_manager = c3fqm.session_manager) ∧
    (c3fqm.current_session = some c3sess) ∧
    ((c3fqm.get_next_song 0).1.session_manager.current_session = some c3sess) ∧
    (c3sess.current_index = 0) ∧
    (c3sess.total_songs -
      (((c3fqm.get_next_song 0).1.youtube_queue.length : Int) +
       ((c3fqm.get_next_song 0).1.ready_queue.length : Int)) = 5) ∧
    ((0 : Int) ≠ 5) :=
  ⟨rfl, rfl, rfl, rfl, rfl, rfl, by decide⟩

theorem track_progress_spec (fqm : FastQueueManager) (item : QueueItem)
    (now : ℚ) (s : SessionData)
    (hcs : fqm.current_session = some s)
    (hsm : fqm.session_manager.current_session = some s) :
    ∃ s2 : SessionData,
      (fqm.track_progress item now).session_manager.current_session = some s2 ∧
      s2.current_index = s.total_songs -
        ((fqm.youtube_queue.length : Int) + (fqm.ready_queue.length : Int)) ∧
      ((fqm.track_progress item now).session_manager.files.find?
        (fun t => t.session_id == s2.session_id)) = some s2 ∧
      (fqm.track_progress item now).youtube_queue = fqm.youtube_queue ∧
      (fqm.track_progress item now).ready_queue = fqm.ready_queue := by
  unfold FastQueueManager.track_progress
  rw [hcs]
  unfold SessionManager.update_session_progress
  rw [hsm]
  exact ⟨_, rfl, rfl, saveSessionFile_find _ _, rfl, rfl⟩

/-- Claim C3 (amended): a `get_next_song` return from the local queue leaves
the session manager untouched; for every successful return from the ready
buffer or the backlog while a session is active (both the manager's and the
store's active-session pointers set), the store's progress offset is updated
to `total_songs` minus the remaining backlog plus ready-buffer sizes, in
memory and in the persisted record. -/
theorem progress_update_policy (fqm : FastQueueManager) (now : ℚ) (s : SessionData)
    (hcs : fqm.current_session = some s)
    (hsm : fqm.session_manager.current_session = some s) :
    (∀ item rest, fqm.local_files_exhausted = false → fqm.local_queue = item :: rest →
        (fqm.get_next_song now).1.session_manager = fqm.session_manager) ∧
    (∀ item : QueueItem, (fqm.local_files_exhausted = true ∨ fqm.local_queue = []) →
        (fqm.get_next_song now).2 = some item →
        ∃ s2 : SessionData,
          (fqm.get_next_song now).1.session_manager.current_session = some s2 ∧
          s2.current_index = s.total_songs -
            (((fqm.get_next_song now).1.youtube_queue.length : Int) +
             ((fqm.get_next_song now).1.ready_queue.length : Int)) ∧
          ((fqm.get_next_song now).1.session_manager.files.find?
            (fun t => t.session_id == s2.session_id)) = some s2) := by
  obtain ⟨lq, yq, rq, ex, sm, cs⟩ := fqm
  simp only at hcs hsm
  subst hcs
  constructor
  · intro item rest hex hl
    simp only at hex hl
    subst hex
    subst hl
    rfl
  · intro item hcase hsome
    -- split on which remote branch produced the item
    rcases hrq : rq with _ | ⟨r, rs⟩
    case cons =>
        subst hrq
        -- ready-buffer branch
        have hget : FastQueueManager.get_next_song ⟨lq, yq, r :: rs, ex, sm, some s⟩ now
            = ((FastQueueManager.track_progress ⟨lq, yq, rs, ex, sm, some s⟩ r now), some r) := by
          cases ex with
          | true => rfl
          | false =>
              rcases hcase with hfalse | hl
              · exact absurd hfalse (by simp)
              · simp only at hl
                subst hl
                rfl
        rw [hget] at hsome
        obtain ⟨s2, h1, h2, h3, h4, h5⟩ :=
          track_progress_spec ⟨lq, yq, rs, ex, sm, some s⟩ r now s rfl hsm
        rw [hget]
        refine ⟨s2, h1, ?_, h3⟩
        rw [h2]
        simp only [h4, h5]
    case nil =>
        subst hrq
        rcases hscan : findFirstReady yq with _ | ⟨it, rem⟩
        case some =>
            have hget : FastQueueManager.get_next_song ⟨lq, yq, [], ex, sm, some s⟩ now
                = ((FastQueueManager.track_progress ⟨lq, rem, [], ex, sm, some s⟩ it now),
                   some it) := by
              cases ex with
              | true => simp [FastQueueManager.get_next_song, hscan]
              | false =>
                  rcases hcase with hfalse | hl
                  · exact absurd hfalse (by simp)
                  · simp only at hl
                    subst hl
                    simp [FastQueueManager.get_next_song, hscan]
            rw [hget] at hsome
            obtain ⟨s2, h1, h2, h3, h4, h5⟩ :=
              track_progress_spec ⟨lq, rem, [], ex, sm, some s⟩ it now s rfl hsm
            rw [hget]
            refine ⟨s2, h1, ?_, h3⟩
            rw [h2]
            simp only [h4, h5]
        case none =>
            rcases hyq : yq with _ | ⟨y, ys⟩
            case nil =>
                subst hyq
                have hget : FastQueueManager.get_next_song ⟨lq, [], [], ex, sm, some s⟩ now
                    = (⟨lq, [], [], ex, sm, some s⟩, none) := by
                  cases ex with
                  | true => rfl
                  | false =>
                      rcases hcase with hfalse | hl
                      · exact absurd hfalse (by simp)
                      · simp only at hl
                        subst hl
                        rfl
                rw [hget] at hsome
                exact absurd hsome (by simp)
            case cons =>
                subst hyq
                have hget : FastQueueManager.get_next_song ⟨lq, y :: ys, [], ex, sm, some s⟩ now
                    = ((FastQueueManager.track_progress ⟨lq, ys, [], ex, sm, some s⟩ y now),
                       some y) := by
                  cases ex with
                  | true => simp [FastQueueManager.get_next_song, hscan]
                  | false =>
                      rcases hcase with hfalse | hl
                      · exact absurd hfalse (by simp)
                      · simp only at hl
                        subst hl
                        simp [FastQueueManager.get_next_song, hscan]
                rw [hget] at hsome
                obtain ⟨s2, h1, h2, h3, h4, h5⟩ :=
                  track_progress_spec ⟨lq, ys, [], ex, sm, some s⟩ y now s rfl hsm
                rw [hget]
                refine ⟨s2, h1, ?_, h3⟩
                rw [h2]
                simp only [h4, h5]

/-- A concrete enriched remote item sitting in the ready buffer. -/
def c3witem : QueueItem :=
  { source_type := SourceType.YOUTUBE_URL
    path_or_url := "u3"
    metadata_ready := true }

/-- A manager with the active session `c3sess` and `c3witem` ready to play. -/
def c3wfqm : FastQueueManager :=
  { ready_queue := [c3witem]
    session_manager := { files := [c3sess], current_session := some c3sess }
    current_session := some c3sess }

/-- Witness for C3 (amended) at a concrete ready-buffer dequeue. -/
theorem progress_update_policy_witness :
    ∃ s2 : SessionData,
      (c3wfqm.get_next_song 0).1.session_manager.current_session = some s2 ∧
      s2.current_index = c3sess.total_songs -
        (((c3wfqm.get_next_song 0).1.youtube_queue.length : Int) +
         ((c3wfqm.get_next_song 0).1.ready_queue.length : Int)) ∧
      ((c3wfqm.get_next_song 0).1.session_manager.files.find?
        (fun t => t.session_id == s2.session_id)) = some s2 :=
  (progress_update_policy c3wfqm 0 c3sess rfl rfl).2 c3witem (Or.inr rfl) rfl

theorem scanClaim_spec (l : List QueueItem) (i : Nat) (l2 : List QueueItem)
    (h : scanClaim l = some (i, l2)) :
    ∃ it : QueueItem, l[i]? = some it ∧ it.metadata_ready = false ∧
      it.analysis_in_progress = false ∧
      l2 = l.set i { it with analysis_in_progress := true } := by
  induction l generalizing i l2 with
  | nil => simp [scanClaim] at h
  | cons x xs ih =>
      unfold scanClaim at h
      by_cases hc : (!x.metadata_ready && !x.analysis_in_progress) = true
      · rw [if_pos hc] at h
        have h2 : ((0 : Nat), ({ x with analysis_in_progress := true } : QueueItem) :: xs)
            = (i, l2) := Option.some.inj h
        have hi : (0 : Nat) = i := congrArg Prod.fst h2
        have hl : ({ x with analysis_in_progress := true } : QueueItem) :: xs = l2 :=
          congrArg Prod.snd h2
        subst hi
        subst hl
        simp only [Bool.and_eq_true, Bool.not_eq_true'] at hc
        exact ⟨x, by simp, hc.1, hc.2, by rw [List.set_cons_zero]⟩
      · rw [if_neg hc] at h
        cases hs : scanClaim xs with
        | none =>
            rw [hs] at h
            simp at h
        | some p =>
            obtain ⟨j, rem⟩ := p
            rw [hs] at h
            have h2 : (j + 1, x :: rem) = (i, l2) := Option.some.inj h
            have hi : j + 1 = i := congrArg Prod.fst h2
            have hl : x :: rem = l2 := congrArg Prod.snd h2
            subst hi
            subst hl
            obtain ⟨it, hit, hready, hprog, hrem⟩ := ih j rem hs
            refine ⟨it, ?_, hready, hprog, ?_⟩
            · rw [List.getElem?_cons_succ]
              exact hit
            · rw [List.set_cons_succ, hrem]

/-- The joint state of `W` analysis workers racing on one manager: the shared
`FastQueueManager` and, for each worker, the backlog position of the item it
currently holds (none while between items). -/
structure PoolState (W : Nat) where
  fqm : FastQueueManager
  holding : Fin W → Option Nat

/-- One atomic lock-protected step of the analysis worker loop of
`fast_queue_manager.py` lines 219-247: either a worker claims the first
unclaimed unready backlog item (lines 226-232, the whole read-and-claim under
`queue_lock`), or a worker finishes `_analyze_item` on the item it holds
(lines 249-285, whose state writes run under `queue_lock`). -/
inductive PoolStep (W : Nat) : PoolState W → PoolState W → Prop where
  | claim (s : PoolState W) (w : Fin W) (idx : Nat) (backlog2 : List QueueItem)
      (hfree : s.holding w = none)
      (hscan : scanClaim s.fqm.youtube_queue = some (idx, backlog2)) :
      PoolStep W s
        ⟨{ s.fqm with youtube_queue := backlog2 },
         Function.update s.holding w (some idx)⟩
  | finish (s : PoolState W) (w : Fin W) (idx : Nat)
      (result : Except String SongMetadata)
      (hheld : s.holding w = some idx) :
      PoolStep W s
        ⟨s.fqm.analyze_item_at idx result,
         Function.update s.holding w none⟩

/-- Worker-pool invariant: every held backlog position carries an item with
`analysis_in_progress`, and no two workers hold the same position. -/
def PoolInv {W : Nat} (s : PoolState W) : Prop :=
  (∀ (w : Fin W) (i : Nat), s.holding w = some i →
      ∃ it : QueueItem, s.fqm.youtube_queue[i]? = some it ∧
        it.analysis_in_progress = true) ∧
  (∀ (w1 w2 : Fin W) (i : Nat),
      s.holding w1 = some i → s.holding w2 = some i → w1 = w2)

theorem analyze_item_at_getElem_ne (fqm : FastQueueManager) (idx : Nat)
    (result : Except String SongMetadata) (j : Nat) (hne : j ≠ idx) :
    (fqm.analyze_item_at idx result).youtube_queue[j]? = fqm.youtube_queue[j]? := by
  unfold FastQueueManager.analyze_item_at
  cases h : fqm.youtube_queue[idx]? with
  | none => rfl
  | some item =>
      cases result with
      | ok m =>
          by_cases hcond : (m.is_complete_metadata ||
              (m.source == MetadataSource.ACOUSTID) ||
              (m.source == MetadataSource.MUSICBRAINZ)) = true
          · simp only [hcond, if_true]
            exact List.getElem?_set_ne (fun he => hne he.symm)
          · simp only [hcond, if_false, Bool.false_eq_true]
            exact List.getElem?_set_ne (fun he => hne he.symm)
      | error e =>
          exact List.getElem?_set_ne (fun he => hne he.symm)

theorem poolStep_preserves {W : Nat} {s s2 : PoolState W}
    (hstep : PoolStep W s s2) (hinv : PoolInv s) : PoolInv s2 := by
  obtain ⟨hold, hinj⟩ := hinv
  cases hstep with
  | claim w idx backlog2 hfree hscan =>
      obtain ⟨it, hit, hready, hprog, hset⟩ := scanClaim_spec _ _ _ hscan
      have hlt : idx < s.fqm.youtube_queue.length := (List.getElem?_eq_some.mp hit).1
      constructor
      · intro w2 i h2
        dsimp only at h2 ⊢
        by_cases hw : w2 = w
        · subst hw
          rw [Function.update_same] at h2
          obtain rfl : idx = i := Option.some.inj h2
          refine ⟨{ it with analysis_in_progress := true }, ?_, rfl⟩
          simp only [hset]
          exact List.getElem?_set_self hlt
        · rw [Function.update_noteq hw] at h2
          obtain ⟨jt, hjt, hjp⟩ := hold w2 i h2
          have hne : idx ≠ i := by
            intro he
            subst he
            rw [hit] at hjt
            obtain rfl : it = jt := Option.some.inj hjt
            rw [hprog] at hjp
            exact Bool.false_ne_true hjp
          refine ⟨jt, ?_, hjp⟩
          simp only [hset]
          rw [List.getElem?_set_ne hne]
          exact hjt
      · intro w1 w2 i h1 h2
        dsimp only at h1 h2
        by_cases hw1 : w1 = w <;> by_cases hw2 : w2 = w
        · rw [hw1, hw2]
        · subst hw1
          rw [Function.update_same] at h1
          obtain rfl : idx = i := Option.some.inj h1
          rw [Function.update_noteq hw2] at h2
          obtain ⟨jt, hjt, hjp⟩ := hold w2 idx h2
          rw [hit] at hjt
          obtain rfl : it = jt := Option.some.inj hjt
          rw [hprog] at hjp
          exact absurd hjp Bool.false_ne_true
        · subst hw2
          rw [Function.update_same] at h2
          obtain rfl : idx = i := Option.some.inj h2
          rw [Function.update_noteq hw1] at h1
          obtain ⟨jt, hjt, hjp⟩ := hold w1 idx h1
          rw [hit] at hjt
          obtain rfl : it = jt := Option.some.inj hjt
          rw [hprog] at hjp
          exact absurd hjp Bool.false_ne_true
        · rw [Function.update_noteq hw1] at h1
          rw [Function.update_noteq hw2] at h2
          exact hinj w1 w2 i h1 h2
  | finish w idx result hheld =>
      constructor
      · intro w2 i h2
        dsimp only at h2 ⊢
        by_cases hw : w2 = w
        · subst hw
          rw [Function.update_same] at h2
          exact absurd h2 (by simp)
        · rw [Function.update_noteq hw] at h2
          obtain ⟨jt, hjt, hjp⟩ := hold w2 i h2
          have hne : i ≠ idx := by
            intro he
            subst he
            exact hw (hinj w2 w i h2 hheld)
          refine ⟨jt, ?_, hjp⟩
          rw [analyze_item_at_getElem_ne _ _ _ _ hne]
          exact hjt
      · intro w1 w2 i h1 h2
        dsimp only at h1 h2
        by_cases hw1 : w1 = w
        · subst hw1
          rw [Function.update_same] at h1
          exact absurd h1 (by simp)
        · by_cases hw2 : w2 = w
          · subst hw2
            rw [Function.update_same] at h2
            exact absurd h2 (by simp)
          · rw [Function.update_noteq hw1] at h1
            rw [Function.update_noteq hw2] at h2
            exact hinj w1 w2 i h1 h2

theorem poolInv_of_reachable {W : Nat} {s0 s : PoolState W}
    (h0 : PoolInv s0) (hr : Relation.ReflTransGen (PoolStep W) s0 s) :
    PoolInv s := by
  induction hr with
  | refl => exact h0
  | tail hab hbc ih => exact poolStep_preserves hbc ih

/-- Claim C4: with `W ≥ 2` analysis workers racing on the same backlog, in any
state reachable by atomic claim-under-lock and finish steps from a state where
no worker holds an item, no backlog item is held by two distinct workers —
reading the flags of an item and claiming it are one atomic step, so a claimed item
(`analysis_in_progress=true`) is never claimed again. -/
theorem atomic_claim_no_double {W : Nat} (hW : 2 ≤ W) (init s : PoolState W)
    (hinit : ∀ w, init.holding w = none)
    (hreach : Relation.ReflTransGen (PoolStep W) init s)
    (w1 w2 : Fin W) (i : Nat)
    (h1 : s.holding w1 = some i) (h2 : s.holding w2 = some i) :
    w1 = w2 := by
  have h0 : PoolInv init := by
    constructor
    · intro w i hw
      rw [hinit w] at hw
      exact absurd hw (by simp)
    · intro w1 w2 i ha hb
      rw [hinit w1] at ha
      exact absurd ha (by simp)
  exact (poolInv_of_reachable h0 hreach).2 w1 w2 i h1 h2

/-- A concrete unresolved, unclaimed backlog item. -/
def c4item : QueueItem :=
  { source_type := SourceType.YOUTUBE_URL
    path_or_url := "u4" }

/-- Two idle workers over a one-item backlog. -/
def c4init : PoolState 2 :=
  ⟨{ youtube_queue := [c4item] }, fun _ => none⟩

/-- The state after worker 0 claims the backlog item. -/
def c4step : PoolState 2 :=
  ⟨{ c4init.fqm with
      youtube_queue := [{ c4item with analysis_in_progress := true }] },
   Function.update c4init.holding 0 (some 0)⟩

/-- Witness for C4: after worker 0 of 2 claims backlog position 0 in one
atomic step, only worker 0 holds it. -/
theorem atomic_claim_no_double_witness : (0 : Fin 2) = 0 :=
  atomic_claim_no_double (by decide) c4init c4step (fun _ => rfl)
    (Relation.ReflTransGen.single
      (PoolStep.claim c4init 0 0 [{ c4item with analysis_in_progress := true }] rfl rfl))
    0 0 0 (by simp [c4step, c4init]) (by simp [c4step, c4init])

end Play4
